import Mathlib

/-!
Shallow embedding of the crash-analytics python clients
(`src/clients/python/crash_reporter.py` and `src/clients/python/crash_reader.py`).

Python dictionaries holding crash payloads are modelled by an insertion-ordered
`Json` value; `json.dumps(..., separators=(',', ':'))` is modelled by `dumps`.
The HTTP transport and the HMAC-SHA256 primitive are external collaborators
(the `requests` library and `hashlib`/`hmac` from the standard library), so they
enter the embedding as function parameters: `transport` maps a built request to
the observed transport outcome, and `hmacHex` maps a secret and a message to a
hex digest.  The local fallback directory is modelled as an association list
from filename to parsed file content (`json.dump`/`json.load` being inverse
collaborators, a stored file is represented by the `Json` value it holds).
-/

namespace CrashAnalytics

/-- Model of a Python dict/JSON payload; object members keep insertion order,
as Python dictionaries do. -/
inductive Json where
  | null : Json
  | bool (b : Bool) : Json
  | num (n : Int) : Json
  | str (s : String) : Json
  | obj (members : List (String × Json)) : Json

/-- Hex digits rendered with `Nat.digitChar` (0-15 map to 0-9, a-f). -/
def hex4 (n : Nat) : String :=
  String.mk [Nat.digitChar (n / 4096 % 16), Nat.digitChar (n / 256 % 16),
             Nat.digitChar (n / 16 % 16), Nat.digitChar (n % 16)]

/-- Escape of a single character inside a JSON string literal, following
`json.dumps` with the default `ensure_ascii=True` (used on the write path). -/
def jsonEscapeChar (c : Char) : String :=
  if c = '"' then "\\\""
  else if c = '\\' then "\\\\"
  else if c = '\n' then "\\n"
  else if c = '\r' then "\\r"
  else if c = '\t' then "\\t"
  else if c = '\x08' then "\\b"
  else if c = '\x0c' then "\\f"
  else if c.val < 0x20 || c.val > 0x7e then
    if c.val < 0x10000 then "\\u" ++ hex4 c.val.toNat
    else
      "\\u" ++ hex4 (0xd800 + (c.val.toNat - 0x10000) / 0x400) ++
      "\\u" ++ hex4 (0xdc00 + (c.val.toNat - 0x10000) % 0x400)
  else String.singleton c

/-- Model of the serialization of a Python string to a JSON string literal. -/
def jsonQuote (s : String) : String :=
  "\"" ++ String.join (s.data.map jsonEscapeChar) ++ "\""

mutual

/-- Model of `json.dumps(value, separators=(',', ':'))`: compact separators,
members in dictionary insertion order. -/
def dumps : Json → String
  | .null => "null"
  | .bool true => "true"
  | .bool false => "false"
  | .num n => toString n
  | .str s => jsonQuote s
  | .obj ms => "\x7b" ++ dumpsMembers ms ++ "\x7d"

/-- Serialization of the member list of a JSON object, comma separated. -/
def dumpsMembers : List (String × Json) → String
  | [] => ""
  | [(k, v)] => jsonQuote k ++ ":" ++ dumps v
  | (k, v) :: m :: ms => jsonQuote k ++ ":" ++ dumps v ++ "," ++ dumpsMembers (m :: ms)

end

/-- Lookup of a filename in the modelled fallback directory (first match,
as filesystem names are unique). -/
def lookupFile (files : List (String × Json)) (name : String) : Option Json :=
  match files with
  | [] => none
  | (n, d) :: rest => if n = name then some d else lookupFile rest name

namespace Reporter

/-- Outcome observed from one `requests.post` call: an HTTP status code, a
timeout, or another transport-level error (`requests.exceptions.RequestException`). -/
inductive TransportResult where
  | status (code : Nat) : TransportResult
  | timeout : TransportResult
  | connError : TransportResult
deriving DecidableEq

/-- The HTTP POST request built by `CrashReporter._send_to_api` (lines 180-189):
the transmitted body and the signature header value. -/
structure Request where
  body : String
  signatureHeader : String
  appNameHeader : String
deriving DecidableEq

/-- Model of `CrashReporter._send_to_api` lines 174-185: the payload is
serialized once, the HMAC is computed over that payload, and the same payload
string is sent as the request body.  `hmacHex secret message` models
`hmac.new(secret.encode, message.encode, hashlib.sha256).hexdigest()`
(`_generate_hmac`, lines 205-211). -/
def mkRequest (hmacHex : String → String → String) (secret appName : String)
    (crashData : Json) : Request :=
  let payload := dumps crashData
  let signature := hmacHex secret payload
  { body := payload
    signatureHeader := "sha256=" ++ signature
    appNameHeader := appName }

/-- Model of `CrashReporter._send_to_api` (lines 170-203): returns `true`
exactly on HTTP status 200; any other status (including 429), a timeout or a
transport error is caught and yields `false`. -/
def sendToApi (hmacHex : String → String → String)
    (transport : Request → TransportResult) (secret appName : String)
    (crashData : Json) : Bool :=
  match transport (mkRequest hmacHex secret appName crashData) with
  | .status code => code == 200
  | .timeout => false
  | .connError => false

/-- Fallback filename generated by `CrashReporter._store_locally` line 216-217:
`f"crash_{int(time.time())}_{self.app_name}.json"`, where `t` is the whole
second read from the clock. -/
def mkFilename (t : Nat) (appName : String) : String :=
  "crash_" ++ toString t ++ "_" ++ appName ++ ".json"

/-- Insertion of a file into the modelled directory: `open(filepath, 'w')`
overwrites the content if the name already exists, otherwise creates the file. -/
def writeFile (files : List (String × Json)) (name : String) (d : Json) :
    List (String × Json) :=
  match files with
  | [] => [(name, d)]
  | (n, old) :: rest =>
    if n = name then (n, d) :: rest else (n, old) :: writeFile rest name d

/-- Model of `CrashReporter._store_locally` (lines 213-229) for the case where
the filesystem write succeeds (an OS-level write failure is caught and logged
by the source; the pure model has no failing filesystem). -/
def storeLocally (t : Nat) (appName : String) (crashData : Json)
    (files : List (String × Json)) : List (String × Json) :=
  writeFile files (mkFilename t appName) crashData

/-- Model of `CrashReporter.report_crash` (lines 57-84) for an already built
crash payload: tries the API first, returning `true` on delivery, and on
failure stores the payload locally, returning `false`.  The function is total:
no exception reaches the caller. -/
def reportCrash (hmacHex : String → String → String)
    (transport : Request → TransportResult) (secret appName : String)
    (t : Nat) (crashData : Json) (files : List (String × Json)) :
    Bool × List (String × Json) :=
  if sendToApi hmacHex transport secret appName crashData then
    (true, files)
  else
    (false, storeLocally t appName crashData files)

/-- Filename filter used by `retry_local_crashes` and `get_local_crashes`:
`filename.endswith('.json') and filename.startswith('crash_')`, expressed on
the character lists of the strings. -/
def matchesCrashFile (name : String) : Bool :=
  List.isSuffixOf ".json".data name.data &&
  List.isPrefixOf "crash_".data name.data

/-- Deletion of a file from the modelled directory (`os.remove`); filesystem
names are unique, and a directory never holds two entries with one name. -/
def removeFile : List (String × Json) → String → List (String × Json)
  | [], _ => []
  | (n, d) :: rest, name =>
    if n = name then removeFile rest name else (n, d) :: removeFile rest name

/-- Loop body of `CrashReporter.retry_local_crashes` (lines 252-264); `send`
is the call to `self._send_to_api`.  The whole `for` loop sits inside one
`try`, so the first exception — modelled here as a listed file that is no
longer present when opened — aborts the loop: the outer handler logs and the
count accumulated so far is returned, with the remaining listed entries never
attempted. -/
def retryLoop (send : Json → Bool) (listing : List String)
    (files : List (String × Json)) (count : Nat) :
    Nat × List (String × Json) :=
  match listing with
  | [] => (count, files)
  | name :: rest =>
    if matchesCrashFile name then
      match lookupFile files name with
      | none => (count, files)
      | some crashData =>
        if send crashData then
          retryLoop send rest (removeFile files name) (count + 1)
        else
          retryLoop send rest files count
    else
      retryLoop send rest files count

/-- Model of `CrashReporter.retry_local_crashes` (lines 246-268): returns 0
when the storage directory does not exist, otherwise runs the replay loop over
the directory listing with `sent_count = 0`, sending each recovered payload
through `_send_to_api`. -/
def retryLocalCrashes (hmacHex : String → String → String)
    (transport : Request → TransportResult) (secret appName : String)
    (dirExists : Bool) (listing : List String)
    (files : List (String × Json)) : Nat × List (String × Json) :=
  if dirExists then
    retryLoop (sendToApi hmacHex transport secret appName) listing files 0
  else (0, files)

/-- A listed filename whose replay succeeds: it passes the name filter, is
still present when opened, and its payload is delivered. -/
def deliveredName (send : Json → Bool) (files : List (String × Json))
    (name : String) : Bool :=
  matchesCrashFile name && ((lookupFile files name).map send).getD false

/-- A directory entry deleted by a full replay pass: its name is listed,
passes the name filter, and its payload is delivered. -/
def deliveredEntry (send : Json → Bool) (listing : List String)
    (e : String × Json) : Bool :=
  decide (e.1 ∈ listing) && matchesCrashFile e.1 && send e.2

/-- Result of `CrashReporter._get_hardware_specs` (lines 118-168): either the
full snapshot dict with the four probed groups and a collection timestamp, or
the fallback record `{"error": ..., "basic_platform": platform.system()}`
returned by the `except` clause. -/
inductive HwSpecs where
  | full (cpu memory disk platformInfo : Json) (collection_timestamp : String) :
      HwSpecs
  | fallback (errorMsg : String) (basicPlatform : String) : HwSpecs

/-- Whether a hardware-specs result is the full four-group snapshot. -/
def HwSpecs.isFull : HwSpecs → Bool
  | .full _ _ _ _ _ => true
  | .fallback _ _ => false

/-- Model of `CrashReporter._get_hardware_specs` (lines 118-168).  The four
probe groups (psutil/platform collaborators) are passed as `Except` values; the
source evaluates them sequentially inside a single `try`, so the first raising
probe jumps to the `except` clause, which returns the fallback record — the
groups already probed are discarded and the remaining groups never probed.
The function itself is total: no exception escapes. -/
def getHardwareSpecs (cpuProbe memProbe diskProbe platProbe : Except String Json)
    (basicPlatform ts : String) : HwSpecs :=
  match cpuProbe with
  | .error e => .fallback ("Failed to collect specs: " ++ e) basicPlatform
  | .ok cpu =>
    match memProbe with
    | .error e => .fallback ("Failed to collect specs: " ++ e) basicPlatform
    | .ok memory =>
      match diskProbe with
      | .error e => .fallback ("Failed to collect specs: " ++ e) basicPlatform
      | .ok disk =>
        match platProbe with
        | .error e => .fallback ("Failed to collect specs: " ++ e) basicPlatform
        | .ok platformInfo => .full cpu memory disk platformInfo ts

end Reporter

namespace Reader

/-- Query options passed to `CrashReader.read_crash_reports`; a `none` field
models a key absent from the `options` dictionary, so that `options.get(key,
default)` is `Option.getD`. -/
structure ReadOptions where
  limit : Option Nat := none
  offset : Option Nat := none
  days : Option Nat := none
  version : Option String := none
deriving DecidableEq

/-- Query parameters built by `CrashReader.read_crash_reports` lines 65-79:
defaults are `limit=50`, `offset=0`, `days=30`, and the version filter defaults
to the reader instance's `app_version`; only non-default numeric values are
included, and the version only when it is truthy (a nonempty string). -/
def buildParams (selfVersion : Option String) (opts : ReadOptions) :
    List (String × String) :=
  let limit := opts.limit.getD 50
  let offset := opts.offset.getD 0
  let days := opts.days.getD 30
  let version := match opts.version with
    | some v => some v
    | none => selfVersion
  (if limit ≠ 50 then [("limit", toString limit)] else []) ++
  (if offset ≠ 0 then [("offset", toString offset)] else []) ++
  (if days ≠ 30 then [("days", toString days)] else []) ++
  (match version with
   | some v => if v ≠ "" then [("version", v)] else []
   | none => [])

/-- One crash report record of the read response, with the fields
`get_crash_stats` consumes; `none` models an absent key. -/
structure Report where
  user_id : Option String := none
  session_id : Option String := none
  platform : Option String := none
  app_version : Option String := none
  error_message : Option String := none
  crash_timestamp : Option String := none
deriving DecidableEq

/-- Shape of the parsed read-endpoint response used by the reader:
`{success: bool, data: [...]}`; `data := none` models a missing key. -/
structure ReadResponse where
  success : Bool := false
  data : Option (List Report) := none
deriving DecidableEq

/-- The HTTP GET request built by `read_crash_reports` lines 81-96. -/
structure ReadRequest where
  params : List (String × String)
  signatureHeader : String
  appNameHeader : String
  appVersionHeader : String
deriving DecidableEq

/-- Outcome of the `requests.get` call followed by `raise_for_status()`:
a parsed successful response, an HTTP error status, or a network failure. -/
inductive ReadResult where
  | ok (resp : ReadResponse) : ReadResult
  | httpError (code : Nat) : ReadResult
  | netError : ReadResult
deriving DecidableEq

/-- Request built by `read_crash_reports`: signature is the HMAC of the fixed
literal `"read"` (`generate_read_signature`, lines 40-46), never of the query
parameters. -/
def mkReadRequest (hmacHex : String → String → String) (secret appName : String)
    (selfVersion : Option String) (opts : ReadOptions) : ReadRequest :=
  { params := buildParams selfVersion opts
    signatureHeader := "sha256=" ++ hmacHex secret "read"
    appNameHeader := appName
    appVersionHeader := selfVersion.getD "" }

/-- Model of `CrashReader.read_crash_reports` (lines 48-102).  The source
performs no client-side validation of `limit`, `offset` or `days`: the request
is always issued, and only a transport-level failure (timeout, connection
error, or a non-2xx status surfaced by `raise_for_status`) raises. -/
def readCrashReports (hmacHex : String → String → String)
    (transport : ReadRequest → ReadResult) (secret appName : String)
    (selfVersion : Option String) (opts : ReadOptions) :
    Except String ReadResponse :=
  match transport (mkReadRequest hmacHex secret appName selfVersion opts) with
  | .ok resp => .ok resp
  | .httpError code => .error ("Failed to read crash reports: " ++ toString code)
  | .netError => .error "Failed to read crash reports: connection error"

/-- Histogram update `d[k] = d.get(k, 0) + 1` on an insertion-ordered Python
dictionary, modelled as an association list: a present key is bumped in place,
a new key is appended. -/
def bumpCount (acc : List (String × Nat)) (k : String) : List (String × Nat) :=
  match acc with
  | [] => [(k, 1)]
  | (k', c) :: rest =>
    if k' = k then (k', c + 1) :: rest else (k', c) :: bumpCount rest k

/-- Error-message histogram of a report page, keyed in first-occurrence order
(lines 153-154 of `crash_reader.py`). -/
def errCounts (msgs : List String) : List (String × Nat) :=
  msgs.foldl bumpCount []

/-- Comparison used to sort the error histogram: descending count.  Python's
`sorted(..., key=lambda x: x[1], reverse=True)` is a stable sort by count
descending; a stable sort is modelled by insertion sort under this total
preorder. -/
def countGE (a b : String × Nat) : Prop := b.2 ≤ a.2

instance : DecidableRel countGE := fun a b => Nat.decLe b.2 a.2

instance : IsTotal (String × Nat) countGE := ⟨fun a b => Nat.le_total b.2 a.2⟩

instance : IsTrans (String × Nat) countGE :=
  ⟨fun _ _ _ h1 h2 => Nat.le_trans h2 h1⟩

/-- Model of line 165: the stable descending-by-count sort of the histogram. -/
def sortedByCount (counts : List (String × Nat)) : List (String × Nat) :=
  List.insertionSort countGE counts

/-- Model of lines 165-166: sort the histogram by descending count and keep the
first 10 entries. -/
def topErrorsOf (counts : List (String × Nat)) : List (String × Nat) :=
  (sortedByCount counts).take 10

/-- Top-10 error ranking computed from the raw message sequence of a page. -/
def topErrors (msgs : List String) : List (String × Nat) :=
  topErrorsOf (errCounts msgs)

/-- Example page of error messages: 12 distinct messages with strictly
decreasing multiplicities 12, 11, ..., 1. -/
def ex12 : List String :=
  (List.range 12).flatMap (fun i => List.replicate (12 - i) ("e" ++ toString i))

/-- Distinct elements of a list, in order of first occurrence. -/
def firstOccs : List String → List String
  | [] => []
  | x :: xs => x :: (firstOccs xs).filter (fun y => decide (y ≠ x))

/-- Replacement of every `Z` by `+00:00` in a character list. -/
def replaceZchars : List Char → List Char
  | [] => []
  | c :: rest =>
    if c = 'Z' then '+' :: '0' :: '0' :: ':' :: '0' :: '0' :: replaceZchars rest
    else c :: replaceZchars rest

/-- Model of `report['crash_timestamp'].replace('Z', '+00:00')` (line 142). -/
def replaceZ (s : String) : String :=
  String.mk (replaceZchars s.data)

/-- Python truthiness of an optional string: `None` and `''` are falsy. -/
def truthyStr : Option String → Option String
  | some s => if s = "" then none else some s
  | none => none

/-- Accumulator of the aggregation loop of `get_crash_stats` (lines 141-162). -/
structure StatsAcc where
  platforms : List (String × Nat) := []
  versions : List (String × Nat) := []
  errors : List (String × Nat) := []
  last24h : Nat := 0
  last7d : Nat := 0
  last30d : Nat := 0
deriving DecidableEq

/-- One iteration of the aggregation loop (lines 141-162).  Line 142 reads
`report['crash_timestamp']` — a missing key raises `KeyError` — and parses it
with `datetime.fromisoformat` after `.replace('Z', '+00:00')` — an unparsable
value raises `ValueError`.  There is no handler inside `get_crash_stats`, so
either exception aborts the whole pass; this is modelled by `Except.error`.
`parseTs` models `datetime.fromisoformat` returning an epoch second, and `now`
is the aggregation instant in epoch seconds (`timedelta(days=k)` is `k*86400`
seconds). -/
def aggStep (parseTs : String → Option Int) (now : Int) (acc : StatsAcc)
    (r : Report) : Except String StatsAcc :=
  match r.crash_timestamp with
  | none => .error "KeyError: crash_timestamp"
  | some ts =>
    match parseTs (replaceZ ts) with
    | none => .error "ValueError: invalid isoformat string"
    | some t =>
      .ok { platforms := bumpCount acc.platforms (r.platform.getD "unknown")
            versions := bumpCount acc.versions (r.app_version.getD "unknown")
            errors := bumpCount acc.errors (r.error_message.getD "unknown")
            last24h := if now - 86400 ≤ t then acc.last24h + 1 else acc.last24h
            last7d := if now - 7 * 86400 ≤ t then acc.last7d + 1 else acc.last7d
            last30d := if now - 30 * 86400 ≤ t then acc.last30d + 1 else acc.last30d }

/-- Statistics record returned by `get_crash_stats` (lines 122-134, 164-168). -/
structure Stats where
  total_crashes : Nat
  unique_users : Nat
  unique_sessions : Nat
  platforms : List (String × Nat)
  versions : List (String × Nat)
  top_errors : List (String × Nat)
  last24h : Nat
  last7d : Nat
  last30d : Nat
deriving DecidableEq

/-- Options of the `read_crash_reports` call issued by `get_crash_stats`
(line 114): `{'days': days, 'limit': 100}` — no version key. -/
def statsOptions (days : Nat) : ReadOptions :=
  { days := some days, limit := some 100 }

/-- Options of the call issued by `get_recent_crashes` (lines 180-181):
`{'days': max(1, hours // 24), 'limit': 100}` — no version key. -/
def recentOptions (hours : Nat) : ReadOptions :=
  { days := some (max 1 (hours / 24)), limit := some 100 }

/-- Options of the call issued by `get_crashes_by_error` (line 199):
`{'days': days, 'limit': 100}` — no version key. -/
def byErrorOptions (days : Nat) : ReadOptions :=
  { days := some days, limit := some 100 }

/-- Model of `CrashReader.get_crash_stats` (lines 104-168): fetches one page,
raises unless the response is successful AND carries a nonempty `data` list
(an empty page raises even on a successful response, lines 116-117), then runs
the aggregation loop — which itself raises on the first report with a missing
or unparsable timestamp — and finally sorts and truncates the error
histogram. -/
def getCrashStats (hmacHex : String → String → String)
    (transport : ReadRequest → ReadResult) (secret appName : String)
    (selfVersion : Option String) (parseTs : String → Option Int) (now : Int)
    (days : Nat) : Except String Stats := do
  let reports ← readCrashReports hmacHex transport secret appName selfVersion
    (statsOptions days)
  let crashData := reports.data.getD []
  if !reports.success || crashData.isEmpty then
    throw "Failed to fetch crash reports for statistics"
  else
    let acc ← crashData.foldlM (aggStep parseTs now) {}
    pure { total_crashes := crashData.length
           unique_users :=
             ((crashData.filterMap (fun r => truthyStr r.user_id)).eraseDups).length
           unique_sessions :=
             ((crashData.filterMap (fun r => truthyStr r.session_id)).eraseDups).length
           platforms := acc.platforms
           versions := acc.versions
           top_errors := topErrorsOf acc.errors
           last24h := acc.last24h
           last7d := acc.last7d
           last30d := acc.last30d }

end Reader

/-! ## Helper lemmas -/

theorem lookupFile_writeFile (files : List (String × Json)) (name : String)
    (d : Json) : lookupFile (Reporter.writeFile files name d) name = some d := by
  induction files with
  | nil => simp [Reporter.writeFile, lookupFile]
  | cons e rest ih =>
    obtain ⟨n, old⟩ := e
    by_cases hn : n = name
    · simp [Reporter.writeFile, lookupFile, hn]
    · simp [Reporter.writeFile, lookupFile, hn, ih]

theorem except_ok_bind {α β ε : Type} (a : α) (f : α → Except ε β) :
    (Except.ok a >>= f) = f a := rfl

theorem sendToApi_eq_true_iff (hmacHex : String → String → String)
    (transport : Reporter.Request → Reporter.TransportResult)
    (secret appName : String) (crashData : Json) :
    Reporter.sendToApi hmacHex transport secret appName crashData = true ↔
      transport (Reporter.mkRequest hmacHex secret appName crashData) =
        Reporter.TransportResult.status 200 := by
  unfold Reporter.sendToApi
  cases htr : transport (Reporter.mkRequest hmacHex secret appName crashData) with
  | status code => simp
  | timeout => simp
  | connError => simp

theorem lookupFile_cons (n : String) (d : Json) (rest : List (String × Json))
    (m : String) :
    lookupFile ((n, d) :: rest) m = if n = m then some d else lookupFile rest m :=
  rfl

theorem lookupFile_removeFile_ne (name m : String) (hne : m ≠ name) :
    ∀ files : List (String × Json),
    lookupFile (Reporter.removeFile files name) m = lookupFile files m := by
  intro files
  induction files with
  | nil => rfl
  | cons e rest ih =>
    obtain ⟨n, d⟩ := e
    by_cases hn : n = name
    · have hnm : ¬(n = m) := fun h => hne ((h ▸ hn : m = name))
      rw [Reporter.removeFile, if_pos hn, ih, lookupFile_cons, if_neg hnm]
    · rw [Reporter.removeFile, if_neg hn, lookupFile_cons, lookupFile_cons]
      by_cases hm : n = m
      · rw [if_pos hm, if_pos hm]
      · rw [if_neg hm, if_neg hm, ih]

theorem removeFile_sublist (name : String) :
    ∀ files : List (String × Json),
    (Reporter.removeFile files name).Sublist files := by
  intro files
  induction files with
  | nil => exact List.Sublist.refl _
  | cons e rest ih =>
    obtain ⟨n, d⟩ := e
    by_cases hn : n = name
    · rw [Reporter.removeFile, if_pos hn]
      exact ih.cons _
    · rw [Reporter.removeFile, if_neg hn]
      exact ih.cons₂ _

theorem removeFile_not_mem (name : String) :
    ∀ files : List (String × Json), name ∉ files.map Prod.fst →
    Reporter.removeFile files name = files := by
  intro files
  induction files with
  | nil => intro _; rfl
  | cons e rest ih =>
    obtain ⟨n, d⟩ := e
    intro hmem
    rw [List.map_cons, List.mem_cons] at hmem
    push_neg at hmem
    rw [Reporter.removeFile, if_neg (fun h => hmem.1 h.symm), ih hmem.2]

theorem lookupFile_entry_eq (name : String) (d : Json) :
    ∀ files : List (String × Json), (files.map Prod.fst).Nodup →
    lookupFile files name = some d →
    ∀ e ∈ files, e.1 = name → e.2 = d := by
  intro files
  induction files with
  | nil => intro _ _ e he; simp at he
  | cons hd rest ih =>
    obtain ⟨n, dd⟩ := hd
    intro hnf hlk e he h1
    rw [List.map_cons, List.nodup_cons] at hnf
    rcases List.mem_cons.mp he with rfl | hmem
    · have hn : n = name := h1
      rw [lookupFile_cons, if_pos hn] at hlk
      exact Option.some.inj hlk
    · by_cases hn : n = name
      · exfalso
        apply hnf.1
        rw [hn, ← h1]
        exact List.mem_map.mpr ⟨e, hmem, rfl⟩
      · refine ih hnf.2 ?_ e hmem h1
        rwa [lookupFile_cons, if_neg hn] at hlk

theorem filter_dE_removeFile (send : Json → Bool) (name : String)
    (rest : List String) (hm : Reporter.matchesCrashFile name = true) :
    ∀ (files : List (String × Json)) (d : Json),
    (files.map Prod.fst).Nodup → lookupFile files name = some d →
    send d = true →
    (Reporter.removeFile files name).filter
      (fun e => !Reporter.deliveredEntry send rest e) =
    files.filter (fun e => !Reporter.deliveredEntry send (name :: rest) e) := by
  intro files
  induction files with
  | nil =>
    intro d _ hlk _
    exact absurd hlk (by simp [lookupFile])
  | cons hd tail ih =>
    obtain ⟨n, dd⟩ := hd
    intro d hnf hlk hs
    rw [List.map_cons, List.nodup_cons] at hnf
    by_cases hn : n = name
    · have hdd : dd = d := by
        rw [lookupFile_cons, if_pos hn] at hlk
        exact Option.some.inj hlk
      rw [Reporter.removeFile, if_pos hn,
        removeFile_not_mem name tail (hn ▸ hnf.1),
        List.filter_cons_of_neg
          (by simp [Reporter.deliveredEntry, hn, hm, hdd, hs])]
      refine List.filter_congr ?_
      intro e he
      have hene : e.1 ≠ name := fun h =>
        (hn ▸ hnf.1) (h ▸ List.mem_map.mpr ⟨e, he, rfl⟩)
      simp [Reporter.deliveredEntry, List.mem_cons, hene]
    · have hlk2 : lookupFile tail name = some d := by
        rwa [lookupFile_cons, if_neg hn] at hlk
      have hcond : (!Reporter.deliveredEntry send (name :: rest) (n, dd)) =
          (!Reporter.deliveredEntry send rest (n, dd)) := by
        simp [Reporter.deliveredEntry, List.mem_cons, hn]
      rw [Reporter.removeFile, if_neg hn, List.filter_cons, List.filter_cons,
        hcond, ih d hnf.2 hlk2 hs]

theorem retryLoop_no_missing (send : Json → Bool) :
    ∀ (listing : List String) (files : List (String × Json)) (count : Nat),
    listing.Nodup → (files.map Prod.fst).Nodup →
    (∀ nm ∈ listing, Reporter.matchesCrashFile nm = true →
      (lookupFile files nm).isSome = true) →
    Reporter.retryLoop send listing files count =
      (count + (listing.filter (Reporter.deliveredName send files)).length,
       files.filter (fun e => !Reporter.deliveredEntry send listing e)) := by
  intro listing
  induction listing with
  | nil =>
    intro files count _ _ _
    refine Prod.ext ?_ ?_
    · simp [Reporter.retryLoop]
    · simp [Reporter.retryLoop, Reporter.deliveredEntry]
  | cons name rest ih =>
    intro files count hnl hnf hpres
    rw [List.nodup_cons] at hnl
    cases hm : Reporter.matchesCrashFile name with
    | false =>
      have hstep : Reporter.retryLoop send (name :: rest) files count =
          Reporter.retryLoop send rest files count := by
        simp [Reporter.retryLoop, hm]
      rw [hstep, ih files count hnl.2 hnf
        (fun nm h1 h2 => hpres nm (List.mem_cons_of_mem _ h1) h2)]
      have hhd : Reporter.deliveredName send files name = false := by
        simp [Reporter.deliveredName, hm]
      rw [List.filter_cons_of_neg (by simp [hhd])]
      refine Prod.ext rfl ?_
      refine List.filter_congr ?_
      intro e _
      by_cases h1 : e.1 = name
      · simp [Reporter.deliveredEntry, h1, hm]
      · simp [Reporter.deliveredEntry, List.mem_cons, h1]
    | true =>
      cases hlk : lookupFile files name with
      | none =>
        exfalso
        have hsome := hpres name (List.mem_cons_self _ _) hm
        rw [hlk] at hsome
        simp at hsome
      | some d =>
        cases hsend : send d with
        | true =>
          have hstep : Reporter.retryLoop send (name :: rest) files count =
              Reporter.retryLoop send rest (Reporter.removeFile files name)
                (count + 1) := by
            simp [Reporter.retryLoop, hm, hlk, hsend]
          have hnf2 : ((Reporter.removeFile files name).map Prod.fst).Nodup :=
            List.Nodup.sublist ((removeFile_sublist name files).map Prod.fst) hnf
          have hpres2 : ∀ nm ∈ rest, Reporter.matchesCrashFile nm = true →
              (lookupFile (Reporter.removeFile files name) nm).isSome = true := by
            intro nm h1 h2
            have hne : nm ≠ name := fun h => hnl.1 (h ▸ h1)
            rw [lookupFile_removeFile_ne name nm hne]
            exact hpres nm (List.mem_cons_of_mem _ h1) h2
          rw [hstep, ih (Reporter.removeFile files name) (count + 1) hnl.2 hnf2
            hpres2]
          have hhd : Reporter.deliveredName send files name = true := by
            simp [Reporter.deliveredName, hm, hlk, hsend]
          have hcnt : ∀ nm ∈ rest,
              Reporter.deliveredName send (Reporter.removeFile files name) nm =
                Reporter.deliveredName send files nm := by
            intro nm h1
            have hne : nm ≠ name := fun h => hnl.1 (h ▸ h1)
            unfold Reporter.deliveredName
            rw [lookupFile_removeFile_ne name nm hne]
          rw [List.filter_congr hcnt, List.filter_cons_of_pos hhd,
            filter_dE_removeFile send name rest hm files d hnf hlk hsend]
          refine Prod.ext ?_ rfl
          simp only [List.length_cons]
          omega
        | false =>
          have hstep : Reporter.retryLoop send (name :: rest) files count =
              Reporter.retryLoop send rest files count := by
            simp [Reporter.retryLoop, hm, hlk, hsend]
          rw [hstep, ih files count hnl.2 hnf
            (fun nm h1 h2 => hpres nm (List.mem_cons_of_mem _ h1) h2)]
          have hhd : Reporter.deliveredName send files name = false := by
            simp [Reporter.deliveredName, hm, hlk, hsend]
          rw [List.filter_cons_of_neg (by simp [hhd])]
          refine Prod.ext rfl ?_
          refine List.filter_congr ?_
          intro e he
          by_cases h1 : e.1 = name
          · have h2 : e.2 = d :=
              lookupFile_entry_eq name d files hnf hlk e he h1
            have hnm : e.1 ∉ rest := h1 ▸ hnl.1
            simp [Reporter.deliveredEntry, h1, hm, h2, hsend, hnm,
              List.mem_cons]
          · simp [Reporter.deliveredEntry, List.mem_cons, h1]

theorem toDigitsCore_eq_digits (fuel : Nat) :
    ∀ (n : Nat) (acc : List Char), 0 < n → n ≤ fuel →
    Nat.toDigitsCore 10 fuel n acc =
      ((Nat.digits 10 n).map Nat.digitChar).reverse ++ acc := by
  induction fuel with
  | zero => intro n acc hpos hle; omega
  | succ f ih =>
    intro n acc hpos hle
    have hstep : Nat.toDigitsCore 10 (f + 1) n acc =
        if n / 10 = 0 then Nat.digitChar (n % 10) :: acc
        else Nat.toDigitsCore 10 f (n / 10) (Nat.digitChar (n % 10) :: acc) :=
      rfl
    rw [hstep, Nat.digits_def' (by norm_num : (1 : ℕ) < 10) hpos]
    by_cases h0 : n / 10 = 0
    · rw [if_pos h0, h0, Nat.digits_zero]
      simp
    · have hpos2 : 0 < n / 10 := Nat.pos_of_ne_zero h0
      have hle2 : n / 10 ≤ f := by
        have := Nat.div_lt_self hpos (by norm_num : 1 < 10)
        omega
      rw [if_neg h0, ih (n / 10) _ hpos2 hle2]
      simp [List.append_assoc]

theorem repr_eq_digits (n : Nat) (hpos : 0 < n) :
    Nat.repr n = (((Nat.digits 10 n).map Nat.digitChar).reverse).asString := by
  have h1 : Nat.repr n = (Nat.toDigitsCore 10 (n + 1) n []).asString := rfl
  rw [h1, toDigitsCore_eq_digits (n + 1) n [] hpos (Nat.le_succ n)]
  simp

theorem digitChar_inj_lt : ∀ a < 10, ∀ b < 10,
    Nat.digitChar a = Nat.digitChar b → a = b := by decide

theorem string_data_inj {s1 s2 : String} (h : s1.data = s2.data) : s1 = s2 :=
  congrArg String.mk h

theorem asString_inj (l1 l2 : List Char) (h : l1.asString = l2.asString) :
    l1 = l2 :=
  congrArg String.data h

theorem map_digitChar_inj :
    ∀ (A B : List Nat), (∀ a ∈ A, a < 10) → (∀ b ∈ B, b < 10) →
    A.map Nat.digitChar = B.map Nat.digitChar → A = B := by
  intro A
  induction A with
  | nil =>
    intro B _ _ h
    cases B with
    | nil => rfl
    | cons b B => simp at h
  | cons a A ih =>
    intro B hA hB h
    cases B with
    | nil => simp at h
    | cons b B =>
      simp only [List.map_cons, List.cons.injEq] at h
      have hab : a = b := digitChar_inj_lt a (hA a (List.mem_cons_self a A)) b
        (hB b (List.mem_cons_self b B)) h.1
      rw [hab, ih B (fun x hx => hA x (List.mem_cons_of_mem a hx))
        (fun x hx => hB x (List.mem_cons_of_mem b hx)) h.2]

theorem repr_pos_ne_repr_zero (n : Nat) (hn : 0 < n) :
    Nat.repr n ≠ Nat.repr 0 := by
  intro h
  have h0 : Nat.repr 0 = List.asString ['0'] := rfl
  rw [repr_eq_digits n hn, h0] at h
  have hl := asString_inj _ _ h
  have hl2 : (Nat.digits 10 n).map Nat.digitChar = ['0'] := by
    have hrev := congrArg List.reverse hl
    simpa using hrev
  have hd : Nat.digits 10 n = [0] := by
    cases hdig : Nat.digits 10 n with
    | nil => rw [hdig] at hl2; simp at hl2
    | cons d rest =>
      rw [hdig] at hl2
      cases rest with
      | nil =>
        simp only [List.map_cons, List.map_nil, List.cons.injEq] at hl2
        have hd10 : d < 10 := Nat.digits_lt_base (by norm_num)
          (hdig ▸ List.mem_cons_self d [])
        have hd0 : d = 0 := digitChar_inj_lt d hd10 0 (by norm_num) hl2.1
        rw [hd0]
      | cons d2 rest2 => simp at hl2
  have hof := Nat.ofDigits_digits 10 n
  rw [hd] at hof
  simp [Nat.ofDigits] at hof
  omega

theorem nat_repr_inj (m n : Nat) (h : Nat.repr m = Nat.repr n) : m = n := by
  rcases Nat.eq_zero_or_pos m with hm | hm <;>
    rcases Nat.eq_zero_or_pos n with hn | hn
  · omega
  · exact absurd h.symm (hm ▸ repr_pos_ne_repr_zero n hn)
  · exact absurd h (hn ▸ repr_pos_ne_repr_zero m hm)
  · rw [repr_eq_digits m hm, repr_eq_digits n hn] at h
    have hl := asString_inj _ _ h
    have hl2 : (Nat.digits 10 m).map Nat.digitChar =
        (Nat.digits 10 n).map Nat.digitChar := by
      have hrev := congrArg List.reverse hl
      simpa using hrev
    have hdig := map_digitChar_inj _ _
      (fun a ha => Nat.digits_lt_base (by norm_num) ha)
      (fun b hb => Nat.digits_lt_base (by norm_num) hb) hl2
    exact Nat.digits.injective 10 hdig

theorem except_error_bind {α β ε : Type} (e : ε) (f : α → Except ε β) :
    ((Except.error e : Except ε α) >>= f) = Except.error e := rfl

theorem except_map_ok {α β ε : Type} (f : α → β) (a : α) :
    (f <$> (Except.ok a : Except ε α)) = Except.ok (f a) := rfl

theorem except_map_error {α β ε : Type} (f : α → β) (e : ε) :
    (f <$> (Except.error e : Except ε α)) = Except.error e := rfl

theorem filter_orderedInsert_eqc (c : Nat) (a : String × Nat) (hc : a.2 = c) :
    ∀ s : List (String × Nat),
    (List.orderedInsert Reader.countGE a s).filter (fun p => p.2 == c) =
      a :: s.filter (fun p => p.2 == c) := by
  intro s
  induction s with
  | nil => simp [List.orderedInsert, hc]
  | cons b s ih =>
    rw [List.orderedInsert]
    by_cases hab : Reader.countGE a b
    · rw [if_pos hab, List.filter_cons_of_pos (by simp [hc])]
    · have hlt : a.2 < b.2 := Nat.lt_of_not_le hab
      have hbc : (b.2 == c) = false := by
        simp only [beq_eq_false_iff_ne, ne_eq]
        omega
      rw [if_neg hab, List.filter_cons_of_neg (by simp [hbc]), ih,
        List.filter_cons_of_neg (by simp [hbc])]

theorem filter_orderedInsert_nec (c : Nat) (a : String × Nat) (hc : a.2 ≠ c) :
    ∀ s : List (String × Nat),
    (List.orderedInsert Reader.countGE a s).filter (fun p => p.2 == c) =
      s.filter (fun p => p.2 == c) := by
  intro s
  induction s with
  | nil => simp [List.orderedInsert, hc]
  | cons b s ih =>
    rw [List.orderedInsert]
    by_cases hab : Reader.countGE a b
    · rw [if_pos hab, List.filter_cons_of_neg (by simp [hc])]
    · rw [if_neg hab]
      simp only [List.filter_cons, ih]

theorem filter_sortedByCount (c : Nat) :
    ∀ l : List (String × Nat),
    (Reader.sortedByCount l).filter (fun p => p.2 == c) =
      l.filter (fun p => p.2 == c) := by
  intro l
  induction l with
  | nil => rfl
  | cons a l ih =>
    simp only [Reader.sortedByCount, List.insertionSort] at ih ⊢
    by_cases hc : a.2 = c
    · rw [filter_orderedInsert_eqc c a hc, ih,
        List.filter_cons_of_pos (by simp [hc])]
    · rw [filter_orderedInsert_nec c a hc, ih,
        List.filter_cons_of_neg (by simp [hc])]

theorem map_fst_bumpCount :
    ∀ (acc : List (String × Nat)) (k : String),
    (Reader.bumpCount acc k).map Prod.fst =
      if k ∈ acc.map Prod.fst then acc.map Prod.fst
      else acc.map Prod.fst ++ [k] := by
  intro acc
  induction acc with
  | nil => intro k; simp [Reader.bumpCount]
  | cons e rest ih =>
    obtain ⟨k0, c⟩ := e
    intro k
    by_cases hk : k0 = k
    · subst hk
      simp [Reader.bumpCount, List.mem_cons]
    · have hk2 : ¬(k = k0) := fun h => hk h.symm
      by_cases hmem : k ∈ rest.map Prod.fst <;>
        simp [Reader.bumpCount, hk, hk2, ih, List.mem_cons, hmem]

theorem errCounts_keys_general :
    ∀ (msgs : List String) (acc : List (String × Nat)),
    (msgs.foldl Reader.bumpCount acc).map Prod.fst =
      acc.map Prod.fst ++
        (Reader.firstOccs msgs).filter
          (fun k => decide (k ∉ acc.map Prod.fst)) := by
  intro msgs
  induction msgs with
  | nil => intro acc; simp [Reader.firstOccs]
  | cons m ms ih =>
    intro acc
    rw [List.foldl_cons, ih (Reader.bumpCount acc m), map_fst_bumpCount,
      Reader.firstOccs]
    by_cases hm : m ∈ acc.map Prod.fst
    · rw [if_pos hm, List.filter_cons_of_neg (by simp [hm])]
      congr 1
      rw [List.filter_filter]
      refine (List.filter_congr ?_).symm
      intro a _
      by_cases ham : a = m
      · subst ham
        simp [hm]
      · simp [ham]
    · rw [if_neg hm, List.filter_cons_of_pos (by simp [hm]),
        List.append_assoc, List.singleton_append]
      congr 1
      rw [List.filter_filter]
      congr 1
      refine List.filter_congr ?_
      intro a _
      by_cases ham : a = m
      · subst ham
        simp
      · simp [ham, List.mem_append]

theorem errCounts_keys (msgs : List String) :
    (Reader.errCounts msgs).map Prod.fst = Reader.firstOccs msgs := by
  have h := errCounts_keys_general msgs []
  simpa [Reader.errCounts] using h

theorem foldlM_aggStep_errors (parseTs : String → Option Int) (now : Int) :
    ∀ (data : List Reader.Report) (acc res : Reader.StatsAcc),
    data.foldlM (Reader.aggStep parseTs now) acc = .ok res →
    res.errors = (data.map (fun r => r.error_message.getD "unknown")).foldl
      Reader.bumpCount acc.errors := by
  intro data
  induction data with
  | nil =>
    intro acc res h
    have h2 : acc = res := by simpa [List.foldlM, pure, Except.pure] using h
    rw [← h2, List.map_nil, List.foldl_nil]
  | cons r rest ih =>
    intro acc res h
    rw [List.foldlM_cons] at h
    cases hstep : Reader.aggStep parseTs now acc r with
    | error e => rw [hstep, except_error_bind] at h; exact absurd h (by simp)
    | ok a =>
      rw [hstep, except_ok_bind] at h
      rw [List.map_cons, List.foldl_cons, ih a res h]
      have ha : a.errors =
          Reader.bumpCount acc.errors (r.error_message.getD "unknown") := by
        cases hts : r.crash_timestamp with
        | none =>
          simp only [Reader.aggStep, hts] at hstep
          exact absurd hstep (by simp)
        | some ts =>
          cases hp : parseTs (Reader.replaceZ ts) with
          | none =>
            simp only [Reader.aggStep, hts, hp] at hstep
            exact absurd hstep (by simp)
          | some t =>
            simp only [Reader.aggStep, hts, hp] at hstep
            have h2 := Except.ok.inj hstep
            subst h2
            rfl
      rw [ha]

/-! ## Claim theorems -/

/-- C1: for every built crash report, `report_crash` returns `True` (Delivered)
iff the transport returns HTTP status 200; on any other status (429 included),
a timeout, or a transport error it returns `False` (StoredLocally), the
fallback directory then holds a file from which the report is reconstructable,
and the function is total — no exception reaches the caller. -/
theorem report_crash_delivery_outcome (hmacHex : String → String → String)
    (transport : Reporter.Request → Reporter.TransportResult)
    (secret appName : String) (t : Nat) (crashData : Json)
    (files : List (String × Json)) :
    ((Reporter.reportCrash hmacHex transport secret appName t crashData files).1 = true ↔
      transport (Reporter.mkRequest hmacHex secret appName crashData) =
        Reporter.TransportResult.status 200) ∧
    ((Reporter.reportCrash hmacHex transport secret appName t crashData files).1 = false →
      (Reporter.reportCrash hmacHex transport secret appName t crashData files).2 =
        Reporter.storeLocally t appName crashData files ∧
      lookupFile
        (Reporter.reportCrash hmacHex transport secret appName t crashData files).2
        (Reporter.mkFilename t appName) = some crashData) := by
  cases hb : Reporter.sendToApi hmacHex transport secret appName crashData with
  | true =>
    refine ⟨?_, ?_⟩
    · simp [Reporter.reportCrash, hb,
        (sendToApi_eq_true_iff hmacHex transport secret appName crashData).mp hb]
    · intro hfalse
      simp [Reporter.reportCrash, hb] at hfalse
  | false =>
    have hns : transport (Reporter.mkRequest hmacHex secret appName crashData) ≠
        Reporter.TransportResult.status 200 := by
      intro h
      have := (sendToApi_eq_true_iff hmacHex transport secret appName
        crashData).mpr h
      simp [hb] at this
    refine ⟨by simp [Reporter.reportCrash, hb, hns], ?_⟩
    intro _
    refine ⟨by simp [Reporter.reportCrash, hb], ?_⟩
    have h2 : (Reporter.reportCrash hmacHex transport secret appName t crashData
        files).2 = Reporter.storeLocally t appName crashData files := by
      simp [Reporter.reportCrash, hb]
    rw [h2]
    exact lookupFile_writeFile files (Reporter.mkFilename t appName) crashData

/-- C1 witness: with a transport answering 500, `report_crash` returns `False`
and the stored fallback file reconstructs the report. -/
theorem report_crash_delivery_outcome_witness :
    (Reporter.reportCrash (fun _ _ => "") (fun _ => .status 500) "s" "a" 7
      (Json.str "payload") []).2 =
      Reporter.storeLocally 7 "a" (Json.str "payload") [] ∧
    lookupFile (Reporter.reportCrash (fun _ _ => "") (fun _ => .status 500) "s"
      "a" 7 (Json.str "payload") []).2 (Reporter.mkFilename 7 "a") =
      some (Json.str "payload") :=
  (report_crash_delivery_outcome (fun _ _ => "") (fun _ => .status 500) "s" "a"
    7 (Json.str "payload") []).2 rfl

/-- C6: the bytes signed on the write path are byte-identical to the request
body actually transmitted — the report is serialized once, the HMAC is computed
over that very payload string, and the same string is the transmitted body —
and the signature travels as a header of the form `sha256=<hex>`. -/
theorem signed_bytes_equal_transmitted_body (hmacHex : String → String → String)
    (secret appName : String) (crashData : Json) :
    (Reporter.mkRequest hmacHex secret appName crashData).body = dumps crashData ∧
    (Reporter.mkRequest hmacHex secret appName crashData).signatureHeader =
      "sha256=" ++
        hmacHex secret (Reporter.mkRequest hmacHex secret appName crashData).body :=
  ⟨rfl, rfl⟩

/-- C8 counterexample: the claim says a failing sub-probe degrades only its own
sub-record while the others are still collected; in the source all four groups
sit in one `try`, so a failing memory probe discards the already-probed cpu
group and never probes disk or platform — the whole snapshot collapses to the
sentinel record. -/
theorem hardware_specs_not_independent_cx :
    Reporter.getHardwareSpecs (.ok (Json.obj [("cpu_count", Json.num 8)]))
      (.error "psutil.virtual_memory failed")
      (.ok (Json.obj [("disk_total", Json.num 1)]))
      (.ok (Json.obj [("system", Json.str "Linux")]))
      "Linux" "2024-01-01T00:00:00+00:00" =
      Reporter.HwSpecs.fallback
        "Failed to collect specs: psutil.virtual_memory failed" "Linux" ∧
    (Reporter.getHardwareSpecs (.ok (Json.obj [("cpu_count", Json.num 8)]))
      (.error "psutil.virtual_memory failed")
      (.ok (Json.obj [("disk_total", Json.num 1)]))
      (.ok (Json.obj [("system", Json.str "Linux")]))
      "Linux" "2024-01-01T00:00:00+00:00").isFull = false :=
  ⟨rfl, rfl⟩

/-- C8 amended: `_get_hardware_specs` never throws (it is total and every probe
failure is caught), but probing is all-or-nothing rather than independent: the
result is the full snapshot iff every sub-probe succeeds, and on the first
failing probe the entire snapshot degrades to the sentinel record
`{"error": ..., "basic_platform": ...}`. -/
theorem hardware_specs_all_or_nothing
    (cpuP memP diskP platP : Except String Json) (c m d p : Json)
    (e bp ts : String) :
    ((Reporter.getHardwareSpecs cpuP memP diskP platP bp ts).isFull = true ↔
      cpuP.isOk = true ∧ memP.isOk = true ∧ diskP.isOk = true ∧
        platP.isOk = true) ∧
    Reporter.getHardwareSpecs (.ok c) (.ok m) (.ok d) (.ok p) bp ts =
      Reporter.HwSpecs.full c m d p ts ∧
    Reporter.getHardwareSpecs (.error e) memP diskP platP bp ts =
      Reporter.HwSpecs.fallback ("Failed to collect specs: " ++ e) bp := by
  refine ⟨?_, rfl, rfl⟩
  cases cpuP <;> cases memP <;> cases diskP <;> cases platP <;>
    simp [Reporter.getHardwareSpecs, Reporter.HwSpecs.isFull, Except.isOk,
      Except.toBool]

/-- C9: when no version filter is supplied, `read_crash_reports` defaults the
version filter to the reader's configured `app_version` and, when that is a
truthy (nonempty) string, includes it in the query parameters; the derived
queries of `get_crash_stats`, `get_recent_crashes` and `get_crashes_by_error`
pass no version key, so each of their fetches carries the instance version. -/
theorem version_filter_defaults_to_app_version (v : String) (hv : v ≠ "")
    (opts : Reader.ReadOptions) (hnone : opts.version = none)
    (days hours days2 : Nat) :
    ("version", v) ∈ Reader.buildParams (some v) opts ∧
    ("version", v) ∈ Reader.buildParams (some v) (Reader.statsOptions days) ∧
    ("version", v) ∈ Reader.buildParams (some v) (Reader.recentOptions hours) ∧
    ("version", v) ∈ Reader.buildParams (some v) (Reader.byErrorOptions days2) := by
  refine ⟨?_, ?_, ?_, ?_⟩ <;>
    simp [Reader.buildParams, Reader.statsOptions, Reader.recentOptions,
      Reader.byErrorOptions, hnone, hv]

/-- C9 witness: a reader configured with version `v1.0.0` includes it in the
query of a call with no version option and in every derived query. -/
theorem version_filter_defaults_to_app_version_witness :
    ("version", "v1.0.0") ∈ Reader.buildParams (some "v1.0.0") {} ∧
    ("version", "v1.0.0") ∈
      Reader.buildParams (some "v1.0.0") (Reader.statsOptions 30) ∧
    ("version", "v1.0.0") ∈
      Reader.buildParams (some "v1.0.0") (Reader.recentOptions 24) ∧
    ("version", "v1.0.0") ∈
      Reader.buildParams (some "v1.0.0") (Reader.byErrorOptions 7) :=
  version_filter_defaults_to_app_version "v1.0.0" (by decide) {} rfl 30 24 7

/-- C10: `get_crash_stats` raises whenever the fetched page has zero reports —
`data` empty or missing — even when the response reports success; it never
returns an all-zero statistics record for an empty page. -/
theorem get_crash_stats_empty_page_raises (hmacHex : String → String → String)
    (transport : Reader.ReadRequest → Reader.ReadResult)
    (secret appName : String) (selfVersion : Option String)
    (parseTs : String → Option Int) (now : Int) (days : Nat)
    (resp : Reader.ReadResponse)
    (htr : transport (Reader.mkReadRequest hmacHex secret appName selfVersion
      (Reader.statsOptions days)) = .ok resp)
    (hdata : resp.data.getD [] = []) :
    Reader.getCrashStats hmacHex transport secret appName selfVersion parseTs
      now days = .error "Failed to fetch crash reports for statistics" := by
  simp [Reader.getCrashStats, Reader.readCrashReports, htr, hdata,
    except_ok_bind]
  rfl

/-- C10 witness: a successful response with an empty data list makes
`get_crash_stats` raise. -/
theorem get_crash_stats_empty_page_raises_witness :
    Reader.getCrashStats (fun _ _ => "")
      (fun _ => .ok { success := true, data := some [] }) "s" "a" none
      (fun _ => none) 0 30 =
      .error "Failed to fetch crash reports for statistics" :=
  get_crash_stats_empty_page_raises (fun _ _ => "")
    (fun _ => .ok { success := true, data := some [] }) "s" "a" none
    (fun _ => none) 0 30 { success := true, data := some [] } rfl rfl

/-- C5: the top-K error ranking of the aggregation holds at most 10 keys in
non-increasing count order; the pre-truncation sorted histogram is stable (for
every count value, the entries with that count appear exactly as in the
accumulated histogram, whose keys are in first-occurrence order of the input
messages), so equal-count keys appear in first-occurrence order; on 12
distinct messages with strictly decreasing counts exactly the 10 most
frequent are returned in descending order; and whenever `get_crash_stats`
returns statistics, its `top_errors` field is this ranking of the fetched
page's error messages. -/
theorem top_errors_ranking (msgs : List String) :
    (Reader.topErrors msgs).length ≤ 10 ∧
    List.Sorted Reader.countGE (Reader.topErrors msgs) ∧
    (∀ c : Nat, (Reader.sortedByCount (Reader.errCounts msgs)).filter
        (fun p => p.2 == c) =
      (Reader.errCounts msgs).filter (fun p => p.2 == c)) ∧
    (Reader.errCounts msgs).map Prod.fst = Reader.firstOccs msgs ∧
    Reader.topErrors Reader.ex12 =
      [("e0", 12), ("e1", 11), ("e2", 10), ("e3", 9), ("e4", 8), ("e5", 7),
       ("e6", 6), ("e7", 5), ("e8", 4), ("e9", 3)] ∧
    (∀ (hmacHex : String → String → String)
        (transport : Reader.ReadRequest → Reader.ReadResult)
        (secret appName : String) (selfVersion : Option String)
        (parseTs : String → Option Int) (now : Int) (days : Nat)
        (s : Reader.Stats),
      Reader.getCrashStats hmacHex transport secret appName selfVersion
        parseTs now days = .ok s →
      ∃ resp : Reader.ReadResponse,
        transport (Reader.mkReadRequest hmacHex secret appName selfVersion
          (Reader.statsOptions days)) = .ok resp ∧
        s.top_errors = Reader.topErrors ((resp.data.getD []).map
          (fun r => r.error_message.getD "unknown"))) := by
  refine ⟨?_, ?_, ?_, ?_, by decide, ?_⟩
  · exact List.length_take_le 10 (Reader.sortedByCount (Reader.errCounts msgs))
  · have hs := List.sorted_insertionSort Reader.countGE (Reader.errCounts msgs)
    exact List.Pairwise.sublist (List.take_sublist 10 _) hs
  · intro c
    exact filter_sortedByCount c (Reader.errCounts msgs)
  · exact errCounts_keys msgs
  · intro hmacHex transport secret appName selfVersion parseTs now days s h
    cases htr : transport (Reader.mkReadRequest hmacHex secret appName
        selfVersion (Reader.statsOptions days)) with
    | httpError code =>
      simp only [Reader.getCrashStats, Reader.readCrashReports, htr,
        except_error_bind] at h
      exact absurd h (by simp)
    | netError =>
      simp only [Reader.getCrashStats, Reader.readCrashReports, htr,
        except_error_bind] at h
      exact absurd h (by simp)
    | ok resp =>
      refine ⟨resp, rfl, ?_⟩
      simp only [Reader.getCrashStats, Reader.readCrashReports, htr,
        except_ok_bind] at h
      split at h
      · exact absurd h (Except.noConfusion)
      · cases hfold : List.foldlM (Reader.aggStep parseTs now)
            ({} : Reader.StatsAcc) (resp.data.getD []) with
        | error e =>
          rw [hfold, except_error_bind] at h
          exact absurd h (by simp)
        | ok acc =>
          rw [hfold, except_ok_bind] at h
          have hs2 := Except.ok.inj h
          have herr := foldlM_aggStep_errors parseTs now (resp.data.getD [])
            {} acc hfold
          rw [← hs2]
          show Reader.topErrorsOf acc.errors = Reader.topErrors
            ((resp.data.getD []).map (fun r => r.error_message.getD "unknown"))
          rw [herr]
          rfl

/-- C5 witness: on a concrete page with messages `a, b, a`, `get_crash_stats`
returns statistics whose `top_errors` equals the ranking computed from the
page. -/
theorem top_errors_ranking_witness :
    ∃ resp : Reader.ReadResponse,
      (fun _ => Reader.ReadResult.ok
        ({ success := true, data := some [
          { error_message := some "a", crash_timestamp := some "T" },
          { error_message := some "b", crash_timestamp := some "T" },
          { error_message := some "a", crash_timestamp := some "T" }] } :
          Reader.ReadResponse))
        (Reader.mkReadRequest (fun _ _ => "") "s" "app" none
          (Reader.statsOptions 30)) = .ok resp ∧
      ({ total_crashes := 3, unique_users := 0, unique_sessions := 0,
         platforms := [("unknown", 3)], versions := [("unknown", 3)],
         top_errors := [("a", 2), ("b", 1)], last24h := 3, last7d := 3,
         last30d := 3 } : Reader.Stats).top_errors =
        Reader.topErrors ((resp.data.getD []).map
          (fun r => r.error_message.getD "unknown")) :=
  (top_errors_ranking ["a"]).2.2.2.2.2 (fun _ _ => "")
    (fun _ => Reader.ReadResult.ok
      { success := true, data := some [
        { error_message := some "a", crash_timestamp := some "T" },
        { error_message := some "b", crash_timestamp := some "T" },
        { error_message := some "a", crash_timestamp := some "T" }] })
    "s" "app" none (fun _ => some 0) 0 30
    { total_crashes := 3, unique_users := 0, unique_sessions := 0,
      platforms := [("unknown", 3)], versions := [("unknown", 3)],
      top_errors := [("a", 2), ("b", 1)], last24h := 3, last7d := 3,
      last30d := 3 } rfl

/-- C3 (code bug): the spec requires a report with a missing or unparsable
`crash_timestamp` to be excluded from the time buckets while still counted in
the total and histograms, with the pass never aborting.  Line 142 of
`crash_reader.py` reads `report['crash_timestamp']` and parses it with no
handler inside `get_crash_stats`, so one bad record aborts the whole
aggregation with an exception: here a page whose second record lacks the
timestamp key (resp. carries an unparsable one) makes the whole call raise —
the well-formed first record is counted nowhere and no statistics are
returned. -/
theorem get_crash_stats_aborts_on_bad_timestamp :
    Reader.getCrashStats (fun _ _ => "")
      (fun _ => .ok { success := true, data := some [
        { platform := some "linux", app_version := some "v1",
          error_message := some "E1",
          crash_timestamp := some "2024-01-01T00:00:00Z" },
        { platform := some "macos", app_version := some "v1",
          error_message := some "E2", crash_timestamp := none }] })
      "s" "a" none (fun _ => some 0) 0 30 =
      .error "KeyError: crash_timestamp" ∧
    Reader.getCrashStats (fun _ _ => "")
      (fun _ => .ok { success := true, data := some [
        { platform := some "linux", app_version := some "v1",
          error_message := some "E1",
          crash_timestamp := some "2024-01-01T00:00:00Z" },
        { platform := some "macos", app_version := some "v1",
          error_message := some "E2",
          crash_timestamp := some "not a timestamp" }] })
      "s" "a" none
      (fun s => if s = "2024-01-01T00:00:00+00:00" then some 0 else none) 0 30 =
      .error "ValueError: invalid isoformat string" :=
  ⟨rfl, rfl⟩

/-- C7 counterexample: fallback filenames depend only on the whole second and
the app name, so two stores within one second collide — the second write
silently overwrites the first report — and lexicographic filename order
disagrees with creation order across a decimal-width boundary (the name for
second 1000000000 sorts before the one for the earlier second 999999999). -/
theorem fallback_filenames_cx :
    Reporter.storeLocally 1700000000 "app" (Json.str "second")
      (Reporter.storeLocally 1700000000 "app" (Json.str "first") []) =
      [("crash_1700000000_app.json", Json.str "second")] ∧
    (Reporter.mkFilename 1000000000 "a").data <
      (Reporter.mkFilename 999999999 "a").data ∧
    (999999999 : Nat) < 1000000000 :=
  ⟨rfl, by decide, by decide⟩

/-- C7 amended: a fallback filename is a function of the generation second and
the app name alone: two invocations collide exactly when they fall in the same
whole second (in which case the later store silently overwrites the earlier
entry), and invocations at different seconds always produce distinct
filenames.  Lexicographic order is not guaranteed to agree with creation
order (see the counterexample across a decimal-width boundary). -/
theorem fallback_filename_distinct_iff_second (t1 t2 : Nat) (app : String)
    (d1 d2 : Json) :
    (Reporter.mkFilename t1 app = Reporter.mkFilename t2 app ↔ t1 = t2) ∧
    Reporter.storeLocally t1 app d2 (Reporter.storeLocally t1 app d1 []) =
      [(Reporter.mkFilename t1 app, d2)] := by
  constructor
  · constructor
    · intro h
      have hd := congrArg String.data h
      simp only [Reporter.mkFilename, String.data_append, List.append_assoc]
        at hd
      have h1 := List.append_cancel_left hd
      have h2 := List.append_cancel_right h1
      exact nat_repr_inj t1 t2 (string_data_inj h2)
    · intro h
      rw [h]
  · simp [Reporter.storeLocally, Reporter.writeFile]

/-- C2 counterexample: the claim says a file that disappears between listing
and opening is a non-error and the remaining entries are still attempted.  In
the source the whole loop sits in one `try`, so the missing first file aborts
the pass: with a transport that would deliver everything (always status 200),
the result is count 0 and the second queued entry is neither attempted nor
deleted — the claim predicts count 1 and an empty queue. -/
theorem retry_local_crashes_abort_cx :
    Reporter.retryLocalCrashes (fun _ _ => "") (fun _ => .status 200) "s" "a"
      true ["crash_1_a.json", "crash_2_a.json"]
      [("crash_2_a.json", Json.null)] =
      (0, [("crash_2_a.json", Json.null)]) ∧
    Reporter.sendToApi (fun _ _ => "") (fun _ => .status 200) "s" "a"
      Json.null = true :=
  ⟨rfl, rfl⟩

/-- C2 amended: when every listed `crash_*.json` name is still present at open
time (and directory names are unique), `retry_local_crashes` attempts each
matching listed entry in listing order, deletes an entry exactly when its
delivery succeeds, leaves failed ones in place, and returns the count of
successful replays.  However a file that disappears between listing and
opening, while not raised to the caller, aborts the pass: the remaining
entries are not attempted and the count accumulated so far is returned. -/
theorem retry_local_crashes_behaviour (hmacHex : String → String → String)
    (transport : Reporter.Request → Reporter.TransportResult)
    (secret appName : String) (listing : List String)
    (files : List (String × Json)) (hnl : listing.Nodup)
    (hnf : (files.map Prod.fst).Nodup)
    (hpres : ∀ nm ∈ listing, Reporter.matchesCrashFile nm = true →
      (lookupFile files nm).isSome = true) :
    Reporter.retryLocalCrashes hmacHex transport secret appName true listing
      files =
      ((listing.filter (Reporter.deliveredName
          (Reporter.sendToApi hmacHex transport secret appName) files)).length,
       files.filter (fun e => !Reporter.deliveredEntry
          (Reporter.sendToApi hmacHex transport secret appName) listing e)) ∧
    (∀ (name : String) (rest : List String) (files2 : List (String × Json))
        (count : Nat), Reporter.matchesCrashFile name = true →
      lookupFile files2 name = none →
      Reporter.retryLoop (Reporter.sendToApi hmacHex transport secret appName)
        (name :: rest) files2 count = (count, files2)) := by
  constructor
  · have h := retryLoop_no_missing
      (Reporter.sendToApi hmacHex transport secret appName) listing files 0
      hnl hnf hpres
    simpa [Reporter.retryLocalCrashes] using h
  · intro name rest files2 count hmt hlk
    simp [Reporter.retryLoop, hmt, hlk]

/-- C2 amended witness: a replay over two present queued files where the first
delivers and the second fails returns count 1, deletes exactly the delivered
entry, and an abort instance where the single listed file is missing returns
the accumulated count with the directory untouched. -/
theorem retry_local_crashes_behaviour_witness :
    Reporter.retryLocalCrashes (fun _ _ => "")
      (fun r => if r.body = "null" then .status 200 else .status 500) "s" "a"
      true ["crash_1_a.json", "nope.txt", "crash_2_a.json"]
      [("crash_1_a.json", Json.null), ("crash_2_a.json", Json.bool true)] =
      (1, [("crash_2_a.json", Json.bool true)]) ∧
    Reporter.retryLoop (Reporter.sendToApi (fun _ _ => "")
      (fun r => if r.body = "null" then .status 200 else .status 500) "s" "a")
      ["crash_9_a.json"] [] 0 = (0, []) := by
  have h := retry_local_crashes_behaviour (fun _ _ => "")
    (fun r => if r.body = "null" then .status 200 else .status 500) "s" "a"
    ["crash_1_a.json", "nope.txt", "crash_2_a.json"]
    [("crash_1_a.json", Json.null), ("crash_2_a.json", Json.bool true)]
    (by decide) (by decide) (by decide)
  exact ⟨h.1.trans (by rfl), h.2 "crash_9_a.json" [] [] 0 (by rfl) rfl⟩

/-- C4 counterexample: the claim says `read_crash_reports` rejects out-of-range
filters locally before any network call; in the source there is no validation —
with `limit=500` (resp. `days=0`) the HTTP request is issued with the
out-of-range value serialized in its query string, and a successful transport
response is returned instead of a validation error. -/
theorem read_crash_reports_no_validation_cx :
    Reader.readCrashReports (fun _ _ => "")
      (fun _ => .ok { success := true, data := some [] }) "s" "a" none
      { limit := some 500 } = .ok { success := true, data := some [] } ∧
    ("limit", "500") ∈ (Reader.mkReadRequest (fun _ _ => "") "s" "a" none
      { limit := some 500 }).params ∧
    Reader.readCrashReports (fun _ _ => "")
      (fun _ => .ok { success := true, data := some [] }) "s" "a" none
      { days := some 0 } = .ok { success := true, data := some [] } ∧
    ("days", "0") ∈ (Reader.mkReadRequest (fun _ _ => "") "s" "a" none
      { days := some 0 }).params :=
  ⟨rfl, by decide, rfl, by decide⟩

/-- C4 amended: `read_crash_reports` performs no client-side range validation:
any non-default `limit` and `days` values — out-of-range ones such as 500 or 0
included — are serialized into the query parameters of a request that is
actually issued, and the transport's successful response is returned unchanged;
no local validation error path exists. -/
theorem read_crash_reports_passes_ranges_through
    (hmacHex : String → String → String)
    (transport : Reader.ReadRequest → Reader.ReadResult)
    (secret appName : String) (selfVersion : Option String)
    (limit days : Nat) (hl : limit ≠ 50) (hd : days ≠ 30)
    (resp : Reader.ReadResponse)
    (htr : transport (Reader.mkReadRequest hmacHex secret appName selfVersion
      { limit := some limit, days := some days }) = .ok resp) :
    ("limit", toString limit) ∈ (Reader.mkReadRequest hmacHex secret appName
      selfVersion { limit := some limit, days := some days }).params ∧
    ("days", toString days) ∈ (Reader.mkReadRequest hmacHex secret appName
      selfVersion { limit := some limit, days := some days }).params ∧
    Reader.readCrashReports hmacHex transport secret appName selfVersion
      { limit := some limit, days := some days } = .ok resp := by
  refine ⟨?_, ?_, ?_⟩
  · simp [Reader.mkReadRequest, Reader.buildParams, hl]
  · simp [Reader.mkReadRequest, Reader.buildParams, hd]
  · simp [Reader.readCrashReports, htr]

/-- C4 amended witness: with `limit=500` and `days=0` the request carries both
out-of-range values and the transport response comes back unchanged. -/
theorem read_crash_reports_passes_ranges_through_witness :
    ("limit", "500") ∈ (Reader.mkReadRequest (fun _ _ => "") "s" "a" none
      { limit := some 500, days := some 0 }).params ∧
    ("days", "0") ∈ (Reader.mkReadRequest (fun _ _ => "") "s" "a" none
      { limit := some 500, days := some 0 }).params ∧
    Reader.readCrashReports (fun _ _ => "")
      (fun _ => .ok { success := true, data := some [] }) "s" "a" none
      { limit := some 500, days := some 0 } =
      .ok { success := true, data := some [] } :=
  read_crash_reports_passes_ranges_through (fun _ _ => "")
    (fun _ => .ok { success := true, data := some [] }) "s" "a" none 500 0
    (by decide) (by decide) { success := true, data := some [] } rfl

end CrashAnalytics
